import Mathlib

/-!
# Verification of the faucet-app Clearnode client

A shallow embedding, in Lean 4, of the Clearnode RPC client of the
`faucet-app` repository (`server/internal/clearnode/client.go`, the
operational checks of `main.go`, and the two-key construction exercised by
`client_validation_test.go`), together with theorems settling the spec's
claims about it.

JSON values decoded by `encoding/json` into `map[string]interface{}` are
modelled by the inductive type `Json`; Go maps appear as association lists
with distinct keys.  Fallible Go functions returning `(T, error)` are
modelled as `Except String T`.
-/

deriving instance DecidableEq for Except

namespace Faucet

/-- A decoded JSON value, as produced by Go's `encoding/json` into
`interface\x7b\x7d`.  Numbers in this protocol are unsigned integers
(request ids, timestamps, decimals), modelled as `Nat`. -/
inductive Json where
  | null : Json
  | bool (b : Bool) : Json
  | num (n : Nat) : Json
  | str (s : String) : Json
  | arr (elems : List Json) : Json
  | obj (fields : List (String × Json)) : Json
deriving Repr

/-- Field lookup in a decoded JSON object (`data["key"]` on a Go map). -/
def Json.lookup (fields : List (String × Json)) (key : String) : Option Json :=
  List.lookup key fields

/-- Struct `Balance` (client.go:62-65): one ledger-balance entry. -/
structure Balance where
  asset : String
  amount : String
deriving Repr, DecidableEq

/-- Struct `Asset` (client.go:55-60): one supported asset. -/
structure Asset where
  token : String
  chainID : Nat
  symbol : String
  decimals : Nat
deriving Repr, DecidableEq

/-- Struct `TransferResult` (client.go:67-73). -/
structure TransferResult where
  transactionID : String
  amount : String
  asset : String
  destination : String
  status : String
deriving Repr, DecidableEq

/-- The scan loop of `parseTokenBalance` (client.go:494-519): first entry
that is an object whose `asset` field is the string `tokenSymbol` and whose
`amount` field is a string wins; anything else is skipped (`continue`);
an exhausted scan yields the zero balance. -/
def findTokenBalance (tokenSymbol : String) : List Json → Balance
  | [] => { asset := tokenSymbol, amount := "0" }
  | b :: rest =>
    match b with
    | .obj balanceData =>
      match Json.lookup balanceData "asset" with
      | some (.str asset) =>
        if asset = tokenSymbol then
          match Json.lookup balanceData "amount" with
          | some (.str amount) => { asset := asset, amount := amount }
          | _ => findTokenBalance tokenSymbol rest
        else findTokenBalance tokenSymbol rest
      | _ => findTokenBalance tokenSymbol rest
    | _ => findTokenBalance tokenSymbol rest

/-- Function `parseTokenBalance` (client.go:488-520): requires `data["ledger_balances"]`
to be a JSON list, then scans it with `findTokenBalance`. -/
def parseTokenBalance (data : List (String × Json)) (tokenSymbol : String) :
    Except String Balance :=
  match Json.lookup data "ledger_balances" with
  | some (.arr balances) => .ok (findTokenBalance tokenSymbol balances)
  | _ => .error "invalid ledger balances response format"

/-- Function `parseTransferResult` (client.go:522-553): requires `data["transactions"]`
to be a JSON list; an empty list still succeeds with an empty transaction id;
otherwise the first element must be an object, whose `id` string (or `""`)
becomes the transaction id. -/
def parseTransferResult (data : List (String × Json))
    (destination asset amount : String) : Except String TransferResult :=
  match Json.lookup data "transactions" with
  | some (.arr transactions) =>
    match transactions with
    | [] =>
      .ok { transactionID := "", amount := amount, asset := asset,
            destination := destination, status := "completed" }
    | tx :: _ =>
      match tx with
      | .obj txData =>
        let txID := match Json.lookup txData "id" with
          | some (.str s) => s
          | _ => ""
        .ok { transactionID := txID, amount := amount, asset := asset,
              destination := destination, status := "completed" }
      | _ => .error "invalid transaction data format"
  | _ => .error "invalid transfer response format"

/-- Function `validateTokenSupport` (main.go, part_003:81-98), given the asset list the
node returned: succeeds exactly when some supported asset carries the
configured symbol. -/
def validateTokenSupport (assets : List Asset) (tokenSymbol : String) :
    Except String Unit :=
  match assets with
  | [] => .error ("token " ++ tokenSymbol ++ " is not supported by Clearnode")
  | asset :: rest =>
    if asset.symbol = tokenSymbol then .ok ()
    else validateTokenSupport rest tokenSymbol

/-- Function `checkFaucetBalance` (main.go, part_003:100-118), given the balance the
node returned: `shopspring/decimal` amounts are modelled as rationals;
fails when the balance is strictly below `standardTipAmount * minTransferCount`. -/
def checkFaucetBalance (balanceAmount standardTipAmount : ℚ)
    (minTransferCount : ℤ) : Except String Unit :=
  let minRequiredBalance := standardTipAmount * (minTransferCount : ℚ)
  if balanceAmount < minRequiredBalance then
    .error "insufficient balance"
  else .ok ()

/-- The operational check run at startup (main.go, part_003:50-56):
token-support validation followed by the balance-sufficiency check, given the
asset list and balance returned by the node's two read-only RPCs. -/
def ensureOperational (assets : List Asset) (tokenSymbol : String)
    (balanceAmount standardTipAmount : ℚ) (minTransferCount : ℤ) :
    Except String Unit := do
  validateTokenSupport assets tokenSymbol
  checkFaucetBalance balanceAmount standardTipAmount minTransferCount

/-! ## The two-identity client construction

The current `NewClient` takes an owner (authentication) key and a signer
(transaction) key — see `client_validation_test.go:10-61`, the config's
`OWNER_PRIVATE_KEY`/`SIGNER_PRIVATE_KEY` pair, and the `main.go` call
`clearnode.NewClient(cfg.OwnerPrivateKey, cfg.SignerPrivateKey, ...)`. -/

/-- A secp256k1 private key, identified by the cleaned 64-hex-character
string accepted by `crypto.HexToECDSA`. -/
structure PrivateKey where
  hex : String
deriving Repr, DecidableEq

/-- A hexadecimal digit, as accepted by `crypto.HexToECDSA`. -/
def isHexDigitChar (c : Char) : Bool :=
  c.isDigit || (('a' ≤ c) && (c ≤ 'f')) || (('A' ≤ c) && (c ≤ 'F'))

/-- Key parsing `crypto.HexToECDSA`: a 64-character hex string parses to a key. -/
def hexToECDSA (s : String) : Option PrivateKey :=
  if s.length = 64 && s.toList.all isHexDigitChar then some ⟨s⟩ else none

/-- The `0x`-marker stripping applied to each key hex string
(client.go:86-89): drop the first two characters when the string is longer
than two characters and starts with `0x`. -/
def cleanPrivateKey (privateKeyHex : String) : String :=
  if privateKeyHex.length > 2 && privateKeyHex.take 2 = "0x" then
    privateKeyHex.drop 2
  else privateKeyHex

/-- The client's identity state: the authentication (owner) key feeding the
EIP-712 signer, and the transaction-signing key used by `signMessage`. -/
structure Client where
  ownerPrivateKey : PrivateKey
  signerPrivateKey : PrivateKey
  url : String
deriving Repr, DecidableEq

/-- Modelled from the spec: the body of the current two-key
`NewClient(ownerPrivateKeyHex, signerPrivateKeyHex, clearnodeURL)` is missing
from the source files — only its test (`TestNewClientValidation`), the
two-key config, and the `main.go` callers appear.  Modelled from spec §3
("two independent key pairs, enforced distinct at construction"), §8
("constructing a client with identical authentication and transaction-signing
keys fails with a key-separation error before any network I/O occurs"), and
the test's expected error text.  Each key is cleaned of an optional `0x`
marker, the cleaned keys must differ, and both must parse; the function is
pure — no network I/O can occur. -/
def NewClient (ownerPrivateKeyHex signerPrivateKeyHex clearnodeURL : String) :
    Except String Client :=
  let ownerHex := cleanPrivateKey ownerPrivateKeyHex
  let signerHex := cleanPrivateKey signerPrivateKeyHex
  if ownerHex = signerHex then
    .error "owner and signer private keys must be different for security reasons"
  else
    match hexToECDSA ownerHex, hexToECDSA signerHex with
    | some ownerKey, some signerKey =>
      .ok { ownerPrivateKey := ownerKey, signerPrivateKey := signerKey,
            url := clearnodeURL }
    | none, _ => .error "failed to parse owner private key"
    | _, none => .error "failed to parse signer private key"

/-- Modelled from the spec: ECDSA signing/recovery is abstracted symbolically
(the concrete curve arithmetic is outside the repository).  A signature
records the signing key and the message hash it covers, and verifies exactly
under its signing key — the abstraction of "recovering the signer address"
used by §4.4 and the §8 key-separation property. -/
structure Signature where
  signedBy : PrivateKey
  message : String
deriving Repr, DecidableEq

/-- Signing `crypto.Sign` with key `k` over `message`, symbolically. -/
def sign (k : PrivateKey) (message : String) : Signature := ⟨k, message⟩

/-- Whether a signature is accepted when the node expects the holder of `k`
to have signed. -/
def verifiesUnder (sig : Signature) (k : PrivateKey) : Bool := sig.signedBy = k

/-- The key the EIP-712 signer holds: `NewEIP712Signer` is constructed with
the authentication (owner) key (spec §4.3 step 2, §4.4). -/
def Client.challengeSigningKey (c : Client) : PrivateKey := c.ownerPrivateKey

/-- The key `signMessage` signs with: the transaction-signing key
(spec §4.2; client.go:442-455 signs with the client's signing key). -/
def Client.requestSigningKey (c : Client) : PrivateKey := c.signerPrivateKey

/-- The EIP-712 challenge signature produced during `Authenticate`
(client.go:162-170, via the EIP-712 signer). -/
def Client.signChallenge (c : Client) (structuredHash : String) : Signature :=
  sign c.challengeSigningKey structuredHash

/-- The generic per-request signature produced by `signMessage`
(client.go:442-455). -/
def Client.signRequest (c : Client) (payloadHash : String) : Signature :=
  sign c.requestSigningKey payloadHash

/-! ## JSON serialization (`json.Marshal`)

`signMessage` (client.go:442-448) marshals the request tuple with Go's
`encoding/json` and hashes the resulting bytes.  `json.Marshal` is
deterministic: in particular it serializes map fields in ascending key
order.  The serializer below reproduces that behaviour over `Json`. -/

/-- One character of Go's JSON string quoting (quotes and backslashes
escaped; the escaping of control and HTML characters is immaterial to the
claims and elided). -/
def escapeFragment (c : Char) : String :=
  if c = '"' then "\\\"" else if c = '\\' then "\\\\" else String.singleton c

/-- A quoted JSON string literal. -/
def serializeString (s : String) : String :=
  "\"" ++ String.join (s.toList.map escapeFragment) ++ "\""

/-- Object fields, after serializing their values, are ordered by key —
`encoding/json` sorts map keys before emitting them. -/
def fieldKeyLe (a b : String × String) : Prop := a.1 ≤ b.1

instance : DecidableRel fieldKeyLe := fun a b =>
  inferInstanceAs (Decidable (a.1 ≤ b.1))

instance : IsTotal (String × String) fieldKeyLe :=
  ⟨fun a b => le_total a.1 b.1⟩

instance : IsTrans (String × String) fieldKeyLe :=
  ⟨fun _ _ _ h₁ h₂ => le_trans h₁ h₂⟩

/-- Serialization `json.Marshal` over decoded JSON values: arrays element by element,
objects with fields sorted by key (Go map serialization order). -/
def Json.serialize : Json → String
  | .null => "null"
  | .bool true => "true"
  | .bool false => "false"
  | .num n => toString n
  | .str s => serializeString s
  | .arr elems =>
    "[" ++ String.intercalate "," (elems.attach.map fun e => e.1.serialize) ++ "]"
  | .obj fields =>
    let serialized := fields.attach.map fun f => (f.1.1, f.1.2.serialize)
    let sorted := List.insertionSort fieldKeyLe serialized
    "\x7b" ++
      String.intercalate "," (sorted.map fun f => serializeString f.1 ++ ":" ++ f.2) ++
      "\x7d"
decreasing_by
  · simp_wf
    have h := List.sizeOf_lt_of_mem e.2
    omega
  · simp_wf
    rcases f with ⟨⟨k, v⟩, hm⟩
    have h := List.sizeOf_lt_of_mem hm
    simp at h ⊢
    omega

/-- The outbound request tuple `req := (requestID, method, params, timestamp)`
built by `sendRequest` (client.go:322-325). -/
structure RequestTuple where
  requestID : Nat
  method : String
  params : Json
  timestamp : Nat

/-- The exact byte sequence hashed and signed inside `signMessage`
(client.go:443-448): the JSON serialization of the four-element tuple. -/
def signerInput (r : RequestTuple) : String :=
  Json.serialize (.arr [.num r.requestID, .str r.method, r.params, .num r.timestamp])

/-! ## Inbound response handling (`listenForResponses`) -/

/-- Struct `RPCResponse` (client.go:47-52): a decoded inbound response. -/
structure RPCResponse where
  requestID : Nat
  method : String
  data : List (String × Json)
  timestamp : Nat
deriving Repr

/-- The envelope checks of `listenForResponses` (client.go:382-412): a frame
whose `res` list has fewer than four entries is ignored; the four leading
entries must be a number, a string, an object, and a number (anything beyond
is ignored); any type mismatch skips the frame (`continue`). -/
def decodeResponse (res : List Json) : Option RPCResponse :=
  match res with
  | .num requestID :: .str method :: .obj data :: .num timestamp :: _ =>
    some { requestID := requestID, method := method, data := data,
           timestamp := timestamp }
  | _ => none

/-- Table `pendingRequests` (client.go:36): request id ↦ the caller's size-1
response channel, whose buffer is `none` when empty. -/
def PendingTable := List (Nat × Option RPCResponse)

/-- Map lookup `pendingRequests[id]` (client.go:426). -/
def lookupPending (table : PendingTable) (id : Nat) : Option (Option RPCResponse) :=
  List.lookup id table

/-- Map `delete(c.pendingRequests, id)` — a no-op on an absent key. -/
def erasePending (table : PendingTable) (id : Nat) : PendingTable :=
  List.filter (fun e => e.1 ≠ id) table

/-- Buffering a response into the entry's channel slot. -/
def fillPending (table : PendingTable) (id : Nat) (response : RPCResponse) :
    PendingTable :=
  List.map (fun e => if e.1 = id then (e.1, some response) else e) table

/-- What became of one inbound response at the dispatch step. -/
inductive DeliveryOutcome where
  | delivered     -- a pending entry existed and its slot was free
  | droppedFull   -- a pending entry existed but its slot already held a response
  | discarded     -- no pending entry (e.g., the call had already timed out)
deriving Repr, DecidableEq

/-- The state after dispatching one decoded response. -/
structure DispatchResult where
  table : PendingTable
  /-- The registered channel's buffer after the dispatch, when an entry
  existed (the channel outlives the table entry — the caller holds it). -/
  callerBuffer : Option (Option RPCResponse)
  outcome : DeliveryOutcome

/-- The dispatch step of `listenForResponses` for one decoded response
(client.go:424-437): when an entry exists, a non-blocking send into its
size-1 channel (`select` with a `default` arm — a full slot drops the
response); no entry means the response is simply not sent anywhere; then the
unconditional cleanup delete.  A total function: no branch blocks, fails, or
panics. -/
def dispatchResponse (table : PendingTable) (response : RPCResponse) :
    DispatchResult :=
  match lookupPending table response.requestID with
  | some none =>
    { table := erasePending (fillPending table response.requestID response)
        response.requestID,
      callerBuffer := some (some response), outcome := .delivered }
  | some (some buffered) =>
    { table := erasePending table response.requestID,
      callerBuffer := some (some buffered), outcome := .droppedFull }
  | none =>
    { table := erasePending table response.requestID,
      callerBuffer := none, outcome := .discarded }

/-- One observation of the reader loop's `ReadJSON` (client.go:376). -/
inductive ReadEvent where
  | frame (res : List Json)   -- a message was read; `res` is its response list
  | readFailure               -- `ReadJSON` returned an error
deriving Repr

/-- The connection state visible to callers: the atomic connectivity flag
and the pending-request table. -/
structure ConnState where
  isConnected : Bool
  pendingRequests : PendingTable

/-- Loop `listenForResponses` (client.go:366-440) consuming a sequence of read
events: well-formed frames are dispatched, malformed ones skipped; the first
read failure breaks the loop and the deferred handler stores `false` into
the connectivity flag (and closes the socket). -/
def listenForResponses (st : ConnState) : List ReadEvent → ConnState
  | [] => st
  | .readFailure :: _ => { st with isConnected := false }
  | .frame res :: rest =>
    match decodeResponse res with
    | some response =>
      listenForResponses
        { st with
          pendingRequests := (dispatchResponse st.pendingRequests response).table }
        rest
    | none => listenForResponses st rest

/-- Method `Transfer` (client.go:288-319).  The second component records whether the
network path was entered: the Not-Connected fast path performs no network
interaction at all.  The node's behaviour on the network path (write, await,
deliver) is abstracted by `networkResult`, the value `sendRequest` would
produce. -/
def Transfer (st : ConnState) (networkResult : Except String RPCResponse)
    (destination asset amount : String) :
    Except String TransferResult × Bool :=
  if !st.isConnected then
    (.error "client is not connected", false)
  else
    match networkResult with
    | .error e => (.error ("transfer failed: " ++ e), true)
    | .ok response =>
      match parseTransferResult response.data destination asset amount with
      | .error e => (.error ("failed to parse transfer result: " ++ e), true)
      | .ok result => (.ok result, true)

/-- Method `GetFaucetBalance` (client.go:265-286), with the node's behaviour
abstracted by `networkResult`. -/
def GetFaucetBalance (st : ConnState) (networkResult : Except String RPCResponse)
    (tokenSymbol : String) : Except String Balance :=
  if !st.isConnected then
    .error "client is not connected"
  else
    match networkResult with
    | .error e => .error ("get_ledger_balances failed: " ++ e)
    | .ok response =>
      match parseTokenBalance response.data tokenSymbol with
      | .error e => .error ("failed to parse balance for " ++ tokenSymbol ++ ": " ++ e)
      | .ok balance => .ok balance

/-- The `auth_verify` response interpretation inside `Authenticate`
(client.go:213-232): a response of method `"error"` becomes an
Authentication Error carrying the node's embedded message (`""` when the
message is absent or not a string, as with Go's one-result type assertion);
otherwise a `success` flag equal to `true` is required, and a present
`jwt_token` string is returned as the stored session credential. -/
def handleAuthVerifyResponse (response : RPCResponse) :
    Except String (Option String) :=
  if response.method = "error" then
    let errorMsg := match Json.lookup response.data "error" with
      | some (.str s) => s
      | _ => ""
    .error ("auth_verify error: " ++ errorMsg)
  else
    match Json.lookup response.data "success" with
    | some (.bool true) =>
      .ok (match Json.lookup response.data "jwt_token" with
           | some (.str s) => some s
           | _ => none)
    | _ => .error "authentication failed. Response does not include success"

/-! ## The `sendRequest` / reader-loop interleaving

A small-step model of one `sendRequest` call (client.go:321-364) running
concurrently with the reader loop's handling of frames carrying that call's
request id (client.go:424-437).  The table is keyed by request id and the
two threads touch no other key for this id, so the state tracks this one
entry: whether it is in the table, the caller-held size-1 channel, each
thread's position, and how many times the entry was actually removed.
Steps are the atomic sections of the source: each lock-protected table
operation, the channel operations, and the `select` commitment. -/

inductive CallerPhase where
  | start        -- about to register the pending entry (client.go:337-340)
  | registered   -- entry registered, about to `WriteJSON` (client.go:342-344)
  | written      -- write succeeded, blocked in the `select` (client.go:355)
  | timedOut     -- the timeout arm was chosen, delete still pending (client.go:358)
  | returned     -- `sendRequest` has returned
deriving Repr, DecidableEq

inductive ReaderPhase where
  | reading    -- blocked on / about to take the next frame (client.go:376)
  | cleaning   -- dispatched a frame, cleanup delete still pending (client.go:434-437)
deriving Repr, DecidableEq

/-- The value `sendRequest` returns. -/
inductive CallOutcome where
  | response (r : RPCResponse)   -- delivered response (client.go:356-357)
  | timeoutErr                   -- "request timeout" (client.go:362)
  | sendErr                      -- "failed to send message" (client.go:350)
deriving Repr

structure CorrState where
  entryPresent : Bool
  buffer : Option RPCResponse
  callerPhase : CallerPhase
  callResult : Option CallOutcome
  frames : List RPCResponse
  readerPhase : ReaderPhase
  removals : Nat
deriving Repr

inductive CorrAct where
  | register        -- client.go:337-340: put the entry into the table
  | writeOk         -- client.go:342-344: `WriteJSON` succeeds
  | writeFail       -- client.go:346-351: delete the entry, return a send error
  | recvResponse    -- client.go:356-357: take the buffered response, return it
  | chooseTimeout   -- client.go:358: the `select` commits to the timer arm
  | timeoutCleanup  -- client.go:359-362: delete the entry, return a timeout error
  | readerDispatch  -- client.go:424-432: lookup and non-blocking send
  | readerCleanup   -- client.go:434-437: unconditional delete
deriving Repr, DecidableEq

/-- One atomic step of the interleaved execution; `none` when the action is
not enabled in the given state. -/
def corrStep (s : CorrState) : CorrAct → Option CorrState
  | .register =>
    if s.callerPhase = .start then
      some { s with entryPresent := true, callerPhase := .registered }
    else none
  | .writeOk =>
    if s.callerPhase = .registered then
      some { s with callerPhase := .written }
    else none
  | .writeFail =>
    if s.callerPhase = .registered then
      some { s with entryPresent := false,
                    removals := s.removals + (if s.entryPresent then 1 else 0),
                    callerPhase := .returned, callResult := some .sendErr }
    else none
  | .recvResponse =>
    if s.callerPhase = .written then
      match s.buffer with
      | some r =>
        some { s with buffer := none, callerPhase := .returned,
                      callResult := some (.response r) }
      | none => none
    else none
  | .chooseTimeout =>
    if s.callerPhase = .written then
      some { s with callerPhase := .timedOut }
    else none
  | .timeoutCleanup =>
    if s.callerPhase = .timedOut then
      some { s with entryPresent := false,
                    removals := s.removals + (if s.entryPresent then 1 else 0),
                    callerPhase := .returned, callResult := some .timeoutErr }
    else none
  | .readerDispatch =>
    if s.readerPhase = .reading then
      match s.frames with
      | f :: rest =>
        some { s with frames := rest, readerPhase := .cleaning,
                      buffer := if s.entryPresent && s.buffer.isNone then some f
                                else s.buffer }
      | [] => none
    else none
  | .readerCleanup =>
    if s.readerPhase = .cleaning then
      some { s with entryPresent := false,
                    removals := s.removals + (if s.entryPresent then 1 else 0),
                    readerPhase := .reading }
    else none

/-- The state at the start of one `sendRequest` call, with `frames` the
inbound responses the node will send for this request id. -/
def corrInit (frames : List RPCResponse) : CorrState :=
  { entryPresent := false, buffer := none, callerPhase := .start,
    callResult := none, frames := frames, readerPhase := .reading,
    removals := 0 }

/-- Run a sequence of interleaved steps; `none` if any step is not enabled. -/
def corrRun (s : CorrState) : List CorrAct → Option CorrState
  | [] => some s
  | a :: rest =>
    match corrStep s a with
    | some s' => corrRun s' rest
    | none => none

/-- A sample decoded response used in concrete executions. -/
def sampleResponse : RPCResponse :=
  { requestID := 1, method := "get_assets", data := [], timestamp := 1700000000000 }

/-- Whether a decoded ledger-balance entry is an object carrying both an
`asset` string equal to the requested symbol and a string `amount` — the
shape `findTokenBalance` accepts. -/
def entryMatches (tokenSymbol : String) : Json → Bool
  | .obj fields =>
    (match Json.lookup fields "asset" with
     | some (.str asset) => asset == tokenSymbol
     | _ => false)
    &&
    (match Json.lookup fields "amount" with
     | some (.str _) => true
     | _ => false)
  | _ => false

/-- The owner key of `TestNewClientValidation`'s success case. -/
def testOwnerKeyHex : String :=
  "abcdef1234567890abcdef1234567890abcdef1234567890abcdef1234567890"

/-- The signer key of `TestNewClientValidation`'s success case. -/
def testSignerKeyHex : String :=
  "fedcba0987654321fedcba0987654321fedcba0987654321fedcba0987654321"

/-- The client `NewClient testOwnerKeyHex testSignerKeyHex` constructs. -/
def testClient : Client :=
  { ownerPrivateKey := ⟨testOwnerKeyHex⟩,
    signerPrivateKey := ⟨testSignerKeyHex⟩,
    url := "ws://localhost:8080" }

/-- A sample decoded `"error"` response used in concrete executions. -/
def errorResponse : RPCResponse :=
  { requestID := 2, method := "error",
    data := [("error", Json.str "invalid signature")],
    timestamp := 1700000000001 }

/-- The inductive invariant of the `sendRequest`/reader interleaving:
before registration nothing has happened; after registration the entry is
either still present and never removed, or gone and removed exactly once; a
result is recorded exactly when the call has returned; a full buffer with a
live entry means the reader is between its dispatch and its cleanup; and a
returned call whose entry is still present can only be waiting on that same
pending cleanup. -/
def CorrInv (s : CorrState) : Prop :=
  (s.callerPhase = .start →
    s.entryPresent = false ∧ s.removals = 0 ∧ s.buffer.isNone = true ∧
      s.callResult.isNone = true)
  ∧ (s.callerPhase ≠ .start →
    s.removals + (if s.entryPresent then 1 else 0) = 1)
  ∧ (s.callResult.isSome = true ↔ s.callerPhase = .returned)
  ∧ (s.entryPresent = true → s.buffer.isSome = true → s.readerPhase = .cleaning)
  ∧ (s.callerPhase = .returned → s.entryPresent = true →
    s.readerPhase = .cleaning)

/-- The state in which the timeout interleaving of
`sendRequest_entry_lifecycle_witness` ends. -/
def timeoutFinalState : CorrState :=
  { entryPresent := false, buffer := none, callerPhase := .returned,
    callResult := some .timeoutErr, frames := [], readerPhase := .reading,
    removals := 1 }

/-! ## Helper lemmas -/

theorem validateTokenSupport_ok_iff (assets : List Asset) (tokenSymbol : String) :
    validateTokenSupport assets tokenSymbol = .ok () ↔
      ∃ a ∈ assets, a.symbol = tokenSymbol := by
  induction assets with
  | nil => simp [validateTokenSupport]
  | cons a rest ih =>
    by_cases h : a.symbol = tokenSymbol
    · exact iff_of_true (by simp [validateTokenSupport, h]) ⟨a, by simp, h⟩
    · simp [validateTokenSupport, h, ih]

theorem checkFaucetBalance_ok_iff (balanceAmount standardTipAmount : ℚ)
    (minTransferCount : ℤ) :
    checkFaucetBalance balanceAmount standardTipAmount minTransferCount = .ok () ↔
      ¬ balanceAmount < standardTipAmount * (minTransferCount : ℚ) := by
  simp only [checkFaucetBalance]
  split <;> simp_all

theorem findTokenBalance_no_match (tokenSymbol : String) (l : List Json)
    (h : ∀ j ∈ l, entryMatches tokenSymbol j = false) :
    findTokenBalance tokenSymbol l = { asset := tokenSymbol, amount := "0" } := by
  induction l with
  | nil => rfl
  | cons b rest ih =>
    have hb := h b (by simp)
    have hrest : ∀ j ∈ rest, entryMatches tokenSymbol j = false :=
      fun j hj => h j (by simp [hj])
    cases b with
    | obj fields =>
      simp only [entryMatches] at hb
      simp only [findTokenBalance]
      cases hasset : Json.lookup fields "asset" with
      | none => simp [ih hrest]
      | some ja =>
        rw [hasset] at hb
        cases ja with
        | str asset =>
          by_cases heq : asset = tokenSymbol
          · simp only [heq, beq_self_eq_true, Bool.true_and] at hb
            cases hamount : Json.lookup fields "amount" with
            | none => simp [heq, ih hrest]
            | some jm =>
              rw [hamount] at hb
              cases jm with
              | str amount => simp at hb
              | null => simp [heq, hamount, ih hrest]
              | bool bb => simp [heq, hamount, ih hrest]
              | num nn => simp [heq, hamount, ih hrest]
              | arr aa => simp [heq, hamount, ih hrest]
              | obj oo => simp [heq, hamount, ih hrest]
          · simp [heq, ih hrest]
        | null => simp [ih hrest]
        | bool bb => simp [ih hrest]
        | num nn => simp [ih hrest]
        | arr aa => simp [ih hrest]
        | obj oo => simp [ih hrest]
    | null => simp [findTokenBalance, ih hrest]
    | bool bb => simp [findTokenBalance, ih hrest]
    | num nn => simp [findTokenBalance, ih hrest]
    | str ss => simp [findTokenBalance, ih hrest]
    | arr aa => simp [findTokenBalance, ih hrest]

/-! ## Claim theorems -/

/-- C2: `NewClient`, given an authentication (owner) key and a
transaction-signing key denoting the same key — regardless of a `0x` marker
on either — fails with the key-separation error and returns no client; the
construction is pure, so no network I/O can have occurred. -/
theorem newClient_same_key_fails (ownerPrivateKeyHex signerPrivateKeyHex
    clearnodeURL : String)
    (h : cleanPrivateKey ownerPrivateKeyHex = cleanPrivateKey signerPrivateKeyHex) :
    NewClient ownerPrivateKeyHex signerPrivateKeyHex clearnodeURL =
      .error "owner and signer private keys must be different for security reasons" := by
  simp [NewClient, h]

theorem newClient_same_key_fails_witness :
    cleanPrivateKey ("0x" ++ testOwnerKeyHex) = cleanPrivateKey testOwnerKeyHex ∧
    NewClient ("0x" ++ testOwnerKeyHex) testOwnerKeyHex "ws://localhost:8080" =
      .error "owner and signer private keys must be different for security reasons" :=
  ⟨by decide, newClient_same_key_fails _ _ _ (by decide)⟩

/-- C3: for every constructed client, the EIP-712 challenge signature of
`Authenticate` is computed with the authentication (owner) identity and the
generic per-request signature of `signMessage` with the transaction-signing
identity; construction enforces the two keys distinct, so a signature from
one path never verifies under the key the node expects for the other. -/
theorem client_key_separation (ownerPrivateKeyHex signerPrivateKeyHex
    clearnodeURL : String) (c : Client) (challengeHash requestHash : String)
    (h : NewClient ownerPrivateKeyHex signerPrivateKeyHex clearnodeURL = .ok c) :
    c.challengeSigningKey = c.ownerPrivateKey ∧
    c.requestSigningKey = c.signerPrivateKey ∧
    c.challengeSigningKey ≠ c.requestSigningKey ∧
    verifiesUnder (c.signChallenge challengeHash) c.requestSigningKey = false ∧
    verifiesUnder (c.signRequest requestHash) c.challengeSigningKey = false := by
  have hkeys : c.ownerPrivateKey ≠ c.signerPrivateKey := by
    simp only [NewClient] at h
    split at h
    · exact absurd h (by simp)
    next hne =>
      split at h
      next ownerKey signerKey ho hs =>
        cases h
        simp only [hexToECDSA] at ho hs
        split at ho
        next =>
          split at hs
          next =>
            cases ho; cases hs
            simpa using hne
          next => exact absurd hs (by simp)
        next => exact absurd ho (by simp)
      next => exact absurd h (by simp)
      next => exact absurd h (by simp)
  refine ⟨rfl, rfl, hkeys, ?_, ?_⟩
  · simp only [verifiesUnder, Client.signChallenge, sign, Client.challengeSigningKey,
      Client.requestSigningKey]
    simp [hkeys]
  · simp only [verifiesUnder, Client.signRequest, sign, Client.challengeSigningKey,
      Client.requestSigningKey]
    simp [Ne.symm hkeys]

theorem client_key_separation_witness :
    NewClient testOwnerKeyHex testSignerKeyHex "ws://localhost:8080" = .ok testClient ∧
    (testClient.challengeSigningKey = testClient.ownerPrivateKey ∧
     testClient.requestSigningKey = testClient.signerPrivateKey ∧
     testClient.challengeSigningKey ≠ testClient.requestSigningKey ∧
     verifiesUnder (testClient.signChallenge "structured-hash") testClient.requestSigningKey
       = false ∧
     verifiesUnder (testClient.signRequest "request-hash") testClient.challengeSigningKey
       = false) :=
  ⟨by decide,
   client_key_separation testOwnerKeyHex testSignerKeyHex "ws://localhost:8080"
     testClient "structured-hash" "request-hash" (by decide)⟩

/-- C4: the operational check fails exactly when the configured symbol is
absent from the node's supported-asset list or the balance is strictly below
`minTransferCount × standardTipAmount`; on the spec's scenario (asset list
`[usdc]`, balance `1000000000`, tip `10`, threshold multiple `10000`) it
succeeds. -/
theorem ensureOperational_ok_iff :
    (∀ (assets : List Asset) (tokenSymbol : String)
       (balanceAmount standardTipAmount : ℚ) (minTransferCount : ℤ),
       ensureOperational assets tokenSymbol balanceAmount standardTipAmount
           minTransferCount = .ok () ↔
         ((∃ a ∈ assets, a.symbol = tokenSymbol) ∧
          ¬ balanceAmount < standardTipAmount * (minTransferCount : ℚ)))
    ∧ ensureOperational
        [{ token := "0xa0b86991", chainID := 137, symbol := "usdc", decimals := 6 }]
        "usdc" 1000000000 10 10000 = .ok () := by
  have main : ∀ (assets : List Asset) (tokenSymbol : String)
      (balanceAmount standardTipAmount : ℚ) (minTransferCount : ℤ),
      ensureOperational assets tokenSymbol balanceAmount standardTipAmount
          minTransferCount = .ok () ↔
        ((∃ a ∈ assets, a.symbol = tokenSymbol) ∧
         ¬ balanceAmount < standardTipAmount * (minTransferCount : ℚ)) := by
    intro assets tokenSymbol balanceAmount standardTipAmount minTransferCount
    rw [← validateTokenSupport_ok_iff assets tokenSymbol,
      ← checkFaucetBalance_ok_iff balanceAmount standardTipAmount minTransferCount]
    unfold ensureOperational
    cases hv : validateTokenSupport assets tokenSymbol with
    | error e => simp [Bind.bind, Except.bind]
    | ok u => cases u; simp [Bind.bind, Except.bind]
  refine ⟨main, (main _ _ _ _ _).mpr
    ⟨⟨{ token := "0xa0b86991", chainID := 137, symbol := "usdc", decimals := 6 },
      by simp, rfl⟩, by push_cast; norm_num⟩⟩

/-- C5 counterexample: against a success response whose payload omits the
transaction list entirely (`data = \x7b\x7d`), `Transfer` reports a decode
error, not success with an empty transaction identifier. -/
theorem transfer_omitted_transactions_errs :
    Transfer { isConnected := true, pendingRequests := [] }
        (.ok { requestID := 3, method := "transfer", data := [], timestamp := 0 })
        "0xABC" "usdc" "10" =
      (.error "failed to parse transfer result: invalid transfer response format",
       true) := rfl

/-- C5 (amended): with a transaction list whose first element carries a
string id, the result carries that id together with the requested asset and
amount; a present-but-empty transaction list still reports success with an
empty transaction identifier; an absent (or non-list) `transactions` field
is a decode error. -/
theorem parseTransferResult_spec :
    (∀ (data : List (String × Json)) (destination asset amount txID : String)
       (txData : List (String × Json)) (rest : List Json),
       Json.lookup data "transactions" = some (.arr (.obj txData :: rest)) →
       Json.lookup txData "id" = some (.str txID) →
       parseTransferResult data destination asset amount =
         .ok { transactionID := txID, amount := amount, asset := asset,
               destination := destination, status := "completed" })
    ∧ (∀ (data : List (String × Json)) (destination asset amount : String),
       Json.lookup data "transactions" = some (.arr []) →
       parseTransferResult data destination asset amount =
         .ok { transactionID := "", amount := amount, asset := asset,
               destination := destination, status := "completed" })
    ∧ (∀ (data : List (String × Json)) (destination asset amount : String),
       (∀ l, Json.lookup data "transactions" ≠ some (.arr l)) →
       parseTransferResult data destination asset amount =
         .error "invalid transfer response format") := by
  refine ⟨?_, ?_, ?_⟩
  · intro data destination asset amount txID txData rest hl hid
    simp [parseTransferResult, hl, hid]
  · intro data destination asset amount hl
    simp [parseTransferResult, hl]
  · intro data destination asset amount habsent
    unfold parseTransferResult
    cases hl : Json.lookup data "transactions" with
    | none => rfl
    | some j =>
      cases j with
      | arr l => exact absurd hl (habsent l)
      | null => rfl
      | bool bb => rfl
      | num nn => rfl
      | str ss => rfl
      | obj oo => rfl

theorem parseTransferResult_spec_witness :
    Json.lookup [("transactions", Json.arr [Json.obj [("id", Json.str "tx-1")]])]
        "transactions" = some (.arr (.obj [("id", Json.str "tx-1")] :: [])) ∧
    parseTransferResult [("transactions", Json.arr [Json.obj [("id", Json.str "tx-1")]])]
        "0xABC" "usdc" "10" =
      .ok { transactionID := "tx-1", amount := "10", asset := "usdc",
            destination := "0xABC", status := "completed" } :=
  ⟨rfl,
   parseTransferResult_spec.1 _ "0xABC" "usdc" "10" "tx-1" _ [] rfl rfl⟩

/-- C10: over any well-formed `get_ledger_balances` payload (one whose
`ledger_balances` field is a list), a scan finding no entry that is an
object with `asset` equal to the requested symbol and a string `amount`
yields the balance `"0"` for that symbol rather than an error; the parse
errors exactly when the `ledger_balances` field is missing or not a list,
and `GetFaucetBalance` passes the default through. -/
theorem parseTokenBalance_zero_default :
    (∀ (data : List (String × Json)) (tokenSymbol : String) (l : List Json),
       Json.lookup data "ledger_balances" = some (.arr l) →
       (∀ j ∈ l, entryMatches tokenSymbol j = false) →
       parseTokenBalance data tokenSymbol =
         .ok { asset := tokenSymbol, amount := "0" })
    ∧ (∀ (data : List (String × Json)) (tokenSymbol : String),
       parseTokenBalance data tokenSymbol =
           .error "invalid ledger balances response format" ↔
         ∀ l, Json.lookup data "ledger_balances" ≠ some (.arr l))
    ∧ (∀ (st : ConnState) (response : RPCResponse) (tokenSymbol : String)
       (l : List Json),
       st.isConnected = true →
       Json.lookup response.data "ledger_balances" = some (.arr l) →
       (∀ j ∈ l, entryMatches tokenSymbol j = false) →
       GetFaucetBalance st (.ok response) tokenSymbol =
         .ok { asset := tokenSymbol, amount := "0" }) := by
  have main : ∀ (data : List (String × Json)) (tokenSymbol : String) (l : List Json),
      Json.lookup data "ledger_balances" = some (.arr l) →
      (∀ j ∈ l, entryMatches tokenSymbol j = false) →
      parseTokenBalance data tokenSymbol =
        .ok { asset := tokenSymbol, amount := "0" } := by
    intro data tokenSymbol l hl hnone
    simp [parseTokenBalance, hl, findTokenBalance_no_match tokenSymbol l hnone]
  refine ⟨main, ?_, ?_⟩
  · intro data tokenSymbol
    unfold parseTokenBalance
    cases hl : Json.lookup data "ledger_balances" with
    | none => simp
    | some j =>
      cases j with
      | arr l => exact iff_of_false (by simp) (fun hall => hall l rfl)
      | null => simp
      | bool bb => simp
      | num nn => simp
      | str ss => simp
      | obj oo => simp
  · intro st response tokenSymbol l hconn hl hnone
    simp [GetFaucetBalance, hconn, main response.data tokenSymbol l hl hnone]

theorem parseTokenBalance_zero_default_witness :
    Json.lookup [("ledger_balances",
        Json.arr [Json.obj [("asset", Json.str "weth"), ("amount", Json.str "5")]])]
        "ledger_balances" =
      some (.arr [Json.obj [("asset", Json.str "weth"), ("amount", Json.str "5")]]) ∧
    (∀ j ∈ [Json.obj [("asset", Json.str "weth"), ("amount", Json.str "5")]],
       entryMatches "usdc" j = false) ∧
    parseTokenBalance [("ledger_balances",
        Json.arr [Json.obj [("asset", Json.str "weth"), ("amount", Json.str "5")]])]
        "usdc" = .ok { asset := "usdc", amount := "0" } :=
  ⟨rfl, by intro j hj; simp at hj; subst hj; rfl,
   parseTokenBalance_zero_default.1 _ "usdc" _ rfl
     (by intro j hj; simp at hj; subst hj; rfl)⟩

theorem listen_disconnect_of_failure (events : List ReadEvent) :
    ∀ st : ConnState, ReadEvent.readFailure ∈ events →
      (listenForResponses st events).isConnected = false := by
  induction events with
  | nil => intro st h; simp at h
  | cons e rest ih =>
    intro st h
    cases e with
    | readFailure => rfl
    | frame res =>
      have hrem : ReadEvent.readFailure ∈ rest := by
        cases List.mem_cons.mp h with
        | inl h1 => exact absurd h1 (by simp)
        | inr h1 => exact h1
      simp only [listenForResponses]
      cases hd : decodeResponse res with
      | some response => exact ih _ hrem
      | none => exact ih _ hrem

theorem lookupPending_erasePending (table : PendingTable) (id : Nat) :
    lookupPending (erasePending table id) id = none := by
  induction table with
  | nil => rfl
  | cons e rest ih =>
    obtain ⟨k, v⟩ := e
    by_cases h : k = id
    · simpa [erasePending, List.filter_cons, h] using ih
    · have hbeq : (id == k) = false := by simp [Ne.symm h]
      simpa [erasePending, List.filter_cons, h, lookupPending, List.lookup, hbeq]
        using ih

theorem erasePending_absent (table : PendingTable) (id : Nat)
    (h : lookupPending table id = none) : erasePending table id = table := by
  induction table with
  | nil => rfl
  | cons e rest ih =>
    obtain ⟨k, v⟩ := e
    simp only [lookupPending, List.lookup] at h
    by_cases hbeq : (id == k) = true
    · rw [hbeq] at h
      simp at h
    · have hfalse : (id == k) = false := by simpa using hbeq
      rw [hfalse] at h
      simp only [] at h
      have hne : k ≠ id := by
        intro he
        subst he
        simp at hfalse
      have htail := ih h
      simp only [erasePending, ne_eq, decide_not] at htail
      simp [erasePending, List.filter_cons, hne, htail]

/-- C6: after any read error inside the reader loop the connectivity flag is
false, and a subsequent `Transfer` call returns the Not-Connected error
immediately — the network path is never entered (second component `false`). -/
theorem read_failure_fails_fast (st : ConnState) (events : List ReadEvent)
    (h : ReadEvent.readFailure ∈ events)
    (networkResult : Except String RPCResponse)
    (destination asset amount : String) :
    (listenForResponses st events).isConnected = false ∧
    Transfer (listenForResponses st events) networkResult destination asset amount =
      (.error "client is not connected", false) := by
  have hflag := listen_disconnect_of_failure events st h
  refine ⟨hflag, ?_⟩
  simp [Transfer, hflag]

theorem read_failure_fails_fast_witness :
    ReadEvent.readFailure ∈ [ReadEvent.frame [], ReadEvent.readFailure] ∧
    ((listenForResponses { isConnected := true, pendingRequests := [] }
        [ReadEvent.frame [], ReadEvent.readFailure]).isConnected = false ∧
     Transfer
        (listenForResponses { isConnected := true, pendingRequests := [] }
          [ReadEvent.frame [], ReadEvent.readFailure])
        (.ok sampleResponse) "0xABC" "usdc" "10" =
       (.error "client is not connected", false)) :=
  ⟨by simp,
   read_failure_fails_fast { isConnected := true, pendingRequests := [] }
     [ReadEvent.frame [], ReadEvent.readFailure] (by simp)
     (.ok sampleResponse) "0xABC" "usdc" "10"⟩

/-- C7: the reader loop's handling of an inbound response is a total
function — it cannot block, fail, or panic — and behaves case by case as:
a waiting entry with a free slot receives the response; an entry whose slot
is already full drops it; a missing entry (for example after the call timed
out) means the response is discarded and the table is untouched; in every
case no entry for the response's request id remains afterwards. -/
theorem dispatchResponse_nonblocking (table : PendingTable)
    (response buffered : RPCResponse) :
    (lookupPending table response.requestID = some none →
       (dispatchResponse table response).outcome = .delivered ∧
       (dispatchResponse table response).callerBuffer = some (some response))
    ∧ (lookupPending table response.requestID = some (some buffered) →
       (dispatchResponse table response).outcome = .droppedFull ∧
       (dispatchResponse table response).callerBuffer = some (some buffered))
    ∧ (lookupPending table response.requestID = none →
       (dispatchResponse table response).outcome = .discarded ∧
       (dispatchResponse table response).table = table)
    ∧ lookupPending (dispatchResponse table response).table
        response.requestID = none := by
  refine ⟨?_, ?_, ?_, ?_⟩
  · intro hl
    simp [dispatchResponse, hl]
  · intro hl
    simp [dispatchResponse, hl]
  · intro hl
    simp [dispatchResponse, hl, erasePending_absent table response.requestID hl]
  · unfold dispatchResponse
    cases hl : lookupPending table response.requestID with
    | none => exact lookupPending_erasePending table response.requestID
    | some slot =>
      cases slot with
      | none => exact lookupPending_erasePending _ response.requestID
      | some r => exact lookupPending_erasePending table response.requestID

theorem dispatchResponse_nonblocking_witness :
    lookupPending [(1, none)] sampleResponse.requestID = some none ∧
    (dispatchResponse [(1, none)] sampleResponse).outcome = .delivered ∧
    (dispatchResponse [(1, none)] sampleResponse).callerBuffer =
      some (some sampleResponse) :=
  ⟨rfl,
   ((dispatchResponse_nonblocking [(1, none)] sampleResponse sampleResponse).1 rfl).1,
   ((dispatchResponse_nonblocking [(1, none)] sampleResponse sampleResponse).1 rfl).2⟩

/-- C9: an inbound response whose method is `"error"` is delivered to the
caller waiting on the matching request id like any other response — the
reader dispatches it into the waiting entry's slot, `sendRequest` returns it
verbatim as the call's response, and `Authenticate` interprets it as an
authentication error carrying the node's embedded message. -/
theorem error_response_delivered (table : PendingTable) (response : RPCResponse)
    (msg : String) (herr : response.method = "error") :
    (lookupPending table response.requestID = some none →
       (dispatchResponse table response).outcome = .delivered ∧
       (dispatchResponse table response).callerBuffer = some (some response))
    ∧ (corrRun (corrInit [response])
         [.register, .writeOk, .readerDispatch, .recvResponse]).map
         (fun s => s.callResult) = some (some (.response response))
    ∧ (Json.lookup response.data "error" = some (.str msg) →
       handleAuthVerifyResponse response =
         .error ("auth_verify error: " ++ msg)) := by
  refine ⟨?_, rfl, ?_⟩
  · intro hl
    simp [dispatchResponse, hl]
  · intro hmsg
    simp [handleAuthVerifyResponse, herr, hmsg]

theorem error_response_delivered_witness :
    errorResponse.method = "error" ∧
    ((dispatchResponse [(2, none)] errorResponse).outcome = .delivered ∧
     (dispatchResponse [(2, none)] errorResponse).callerBuffer =
       some (some errorResponse)) ∧
    handleAuthVerifyResponse errorResponse =
      .error ("auth_verify error: " ++ "invalid signature") :=
  ⟨rfl,
   (error_response_delivered [(2, none)] errorResponse "invalid signature" rfl).1 rfl,
   (error_response_delivered [(2, none)] errorResponse "invalid signature" rfl).2.2 rfl⟩

theorem serialize_arr_eq (elems : List Json) :
    (Json.arr elems).serialize =
      "[" ++ String.intercalate "," (elems.map Json.serialize) ++ "]" := by
  rw [Json.serialize]
  rw [List.attach_map_val elems Json.serialize]

theorem serialize_obj_eq (fields : List (String × Json)) :
    (Json.obj fields).serialize =
      "\x7b" ++
        String.intercalate ","
          ((List.insertionSort fieldKeyLe
              (fields.map fun f => (f.1, f.2.serialize))).map
            fun f => serializeString f.1 ++ ":" ++ f.2) ++
        "\x7d" := by
  rw [Json.serialize]
  rw [List.attach_map_val fields (fun f => (f.1, f.2.serialize))]

/-- Two lists of serialized fields that are permutations of one another,
both sorted by key, with no duplicate key, are equal. -/
theorem sorted_nodupkeys_perm_eq :
    ∀ l₁ l₂ : List (String × String), l₁.Perm l₂ →
      l₁.Sorted fieldKeyLe → l₂.Sorted fieldKeyLe →
      (l₁.map Prod.fst).Nodup → l₁ = l₂ := by
  intro l₁
  induction l₁ with
  | nil =>
    intro l₂ hp _ _ _
    exact hp.nil_eq
  | cons a t ih =>
    intro l₂ hp hs₁ hs₂ hnd
    cases l₂ with
    | nil => exact absurd hp.symm (by simp)
    | cons b t₂ =>
      have hab : a = b := by
        have hmem_a : a ∈ b :: t₂ := hp.mem_iff.mp (by simp)
        have hmem_b : b ∈ a :: t := hp.mem_iff.mpr (by simp)
        rcases List.mem_cons.mp hmem_a with h1 | h1
        · exact h1
        rcases List.mem_cons.mp hmem_b with h2 | h2
        · exact h2.symm
        have hle₁ : fieldKeyLe a b := List.rel_of_sorted_cons hs₁ b h2
        have hle₂ : fieldKeyLe b a := List.rel_of_sorted_cons hs₂ a h1
        have hkey : b.1 = a.1 := le_antisymm hle₂ hle₁
        exfalso
        have hmem_key : a.1 ∈ t.map Prod.fst := by
          rw [← hkey]
          exact List.mem_map_of_mem Prod.fst h2
        have := (List.nodup_cons.mp (by simpa only [List.map_cons] using hnd)).1
        exact this hmem_key
      subst hab
      have ht : t.Perm t₂ := hp.cons_inv
      have hnd' : (t.map Prod.fst).Nodup :=
        (List.nodup_cons.mp (by simpa only [List.map_cons] using hnd)).2
      rw [ih t₂ ht hs₁.of_cons hs₂.of_cons hnd']

/-- Serialization of an object is invariant under reordering its fields
when the keys are distinct — the only freedom a Go map value leaves. -/
theorem serialize_obj_perm (fields₁ fields₂ : List (String × Json))
    (hperm : fields₁.Perm fields₂)
    (hkeys : (fields₁.map Prod.fst).Nodup) :
    (Json.obj fields₁).serialize = (Json.obj fields₂).serialize := by
  rw [serialize_obj_eq, serialize_obj_eq]
  have hmapperm :
      (fields₁.map fun f => (f.1, f.2.serialize)).Perm
        (fields₂.map fun f => (f.1, f.2.serialize)) := hperm.map _
  have hsortperm :
      (List.insertionSort fieldKeyLe
          (fields₁.map fun f => (f.1, f.2.serialize))).Perm
        (List.insertionSort fieldKeyLe
          (fields₂.map fun f => (f.1, f.2.serialize))) :=
    ((List.perm_insertionSort fieldKeyLe _).trans hmapperm).trans
      (List.perm_insertionSort fieldKeyLe _).symm
  have hkeys₁ :
      ((fields₁.map fun f => (f.1, f.2.serialize)).map Prod.fst).Nodup := by
    rw [List.map_map]
    exact hkeys
  have hkeyssorted :
      ((List.insertionSort fieldKeyLe
          (fields₁.map fun f => (f.1, f.2.serialize))).map Prod.fst).Nodup :=
    (((List.perm_insertionSort fieldKeyLe _).map Prod.fst).nodup_iff).mpr hkeys₁
  rw [sorted_nodupkeys_perm_eq _ _ hsortperm
    (List.sorted_insertionSort fieldKeyLe _)
    (List.sorted_insertionSort fieldKeyLe _) hkeyssorted]

/-- C8: the byte sequence hashed and signed for a generic request is exactly
the JSON serialization of the four-element tuple
`(request_id, method, params, timestamp)`, and this serialization is
deterministic: the same logical request — in particular the same params
object up to field order, the only serialization freedom Go's map leaves —
always yields byte-identical signer input, hence the same Keccak256 hash. -/
theorem signerInput_deterministic (requestID timestamp : Nat) (method : String)
    (fields₁ fields₂ : List (String × Json)) (hperm : fields₁.Perm fields₂)
    (hkeys : (fields₁.map Prod.fst).Nodup) :
    signerInput { requestID := requestID, method := method,
                  params := .obj fields₁, timestamp := timestamp } =
      Json.serialize (.arr [.num requestID, .str method, .obj fields₁,
        .num timestamp])
    ∧ signerInput { requestID := requestID, method := method,
                    params := .obj fields₁, timestamp := timestamp } =
      signerInput { requestID := requestID, method := method,
                    params := .obj fields₂, timestamp := timestamp } := by
  refine ⟨rfl, ?_⟩
  simp only [signerInput, serialize_arr_eq, List.map_cons, List.map_nil]
  rw [serialize_obj_perm fields₁ fields₂ hperm hkeys]

theorem signerInput_deterministic_witness :
    ([("b", Json.str "x"), ("a", Json.num 1)] : List (String × Json)).Perm
        [("a", Json.num 1), ("b", Json.str "x")] ∧
    ((([("b", Json.str "x"), ("a", Json.num 1)] : List (String × Json)).map
        Prod.fst).Nodup) ∧
    signerInput { requestID := 7, method := "transfer",
                  params := .obj [("b", Json.str "x"), ("a", Json.num 1)],
                  timestamp := 99 } =
      signerInput { requestID := 7, method := "transfer",
                    params := .obj [("a", Json.num 1), ("b", Json.str "x")],
                    timestamp := 99 } :=
  ⟨List.Perm.swap _ _ _, by decide,
   (signerInput_deterministic 7 99 "transfer"
      [("b", Json.str "x"), ("a", Json.num 1)]
      [("a", Json.num 1), ("b", Json.str "x")]
      (List.Perm.swap _ _ _) (by decide)).2⟩

theorem corrStep_inv (s s' : CorrState) (a : CorrAct) (hinv : CorrInv s)
    (hstep : corrStep s a = some s') : CorrInv s' := by
  obtain ⟨h1, h2, h3, h4, h5⟩ := hinv
  cases a with
  | register =>
    simp only [corrStep] at hstep
    split at hstep
    next hphase =>
      obtain ⟨hpres, hrem, hbuf, hres⟩ := h1 hphase
      cases hstep
      refine ⟨by simp, ?_, ?_, ?_, ?_⟩
      · intro _
        simp [hpres, hrem]
      · simp [Option.isNone_iff_eq_none.mp hres]
      · intro _ hbuf2
        rw [Option.isNone_iff_eq_none.mp hbuf] at hbuf2
        simp at hbuf2
      · intro hc
        simp at hc
    next => exact absurd hstep (by simp)
  | writeOk =>
    simp only [corrStep] at hstep
    split at hstep
    next hphase =>
      cases hstep
      rw [hphase] at h3
      simp at h3
      refine ⟨by simp, ?_, ?_, h4, ?_⟩
      · intro _
        exact h2 (by simp [hphase])
      · simp [h3]
      · intro hc
        simp at hc
    next => exact absurd hstep (by simp)
  | writeFail =>
    simp only [corrStep] at hstep
    split at hstep
    next hphase =>
      cases hstep
      refine ⟨by simp, ?_, by simp, by simp, by simp⟩
      intro _
      simpa using h2 (by simp [hphase])
    next => exact absurd hstep (by simp)
  | recvResponse =>
    simp only [corrStep] at hstep
    split at hstep
    next hphase =>
      cases hbufeq : s.buffer with
      | some r =>
        rw [hbufeq] at hstep
        cases hstep
        refine ⟨by simp, ?_, by simp, by simp, ?_⟩
        · intro _
          exact h2 (by simp [hphase])
        · intro _ hp
          exact h4 hp (by simp [hbufeq])
      | none =>
        rw [hbufeq] at hstep
        exact absurd hstep (by simp)
    next => exact absurd hstep (by simp)
  | chooseTimeout =>
    simp only [corrStep] at hstep
    split at hstep
    next hphase =>
      cases hstep
      rw [hphase] at h3
      simp at h3
      refine ⟨by simp, ?_, ?_, h4, ?_⟩
      · intro _
        exact h2 (by simp [hphase])
      · simp [h3]
      · intro hc
        simp at hc
    next => exact absurd hstep (by simp)
  | timeoutCleanup =>
    simp only [corrStep] at hstep
    split at hstep
    next hphase =>
      cases hstep
      refine ⟨by simp, ?_, by simp, by simp, by simp⟩
      intro _
      simpa using h2 (by simp [hphase])
    next => exact absurd hstep (by simp)
  | readerDispatch =>
    simp only [corrStep] at hstep
    split at hstep
    next hreader =>
      cases hframes : s.frames with
      | cons f rest =>
        rw [hframes] at hstep
        cases hstep
        refine ⟨?_, h2, h3, ?_, ?_⟩
        · intro hph
          obtain ⟨hp, hr, hb, hc⟩ := h1 hph
          exact ⟨hp, hr, by simp [hp, hb], hc⟩
        · intro _ _
          rfl
        · intro _ _
          rfl
      | nil =>
        rw [hframes] at hstep
        exact absurd hstep (by simp)
    next => exact absurd hstep (by simp)
  | readerCleanup =>
    simp only [corrStep] at hstep
    split at hstep
    next hreader =>
      cases hstep
      refine ⟨?_, ?_, h3, by simp, by simp⟩
      · intro hph
        obtain ⟨hp, hr, hb, hc⟩ := h1 hph
        exact ⟨rfl, by simp [hp, hr], hb, hc⟩
      · intro hph
        simpa using h2 hph
    next => exact absurd hstep (by simp)

theorem corrRun_inv (acts : List CorrAct) :
    ∀ s s' : CorrState, CorrInv s → corrRun s acts = some s' → CorrInv s' := by
  induction acts with
  | nil =>
    intro s s' h hrun
    cases hrun
    exact h
  | cons a rest ih =>
    intro s s' h hrun
    simp only [corrRun] at hrun
    cases hstep : corrStep s a with
    | none =>
      rw [hstep] at hrun
      exact absurd hrun (by simp)
    | some s₁ =>
      rw [hstep] at hrun
      exact ih s₁ s' (corrStep_inv s s₁ a h hstep) hrun

theorem corrInit_inv (frames : List RPCResponse) : CorrInv (corrInit frames) := by
  refine ⟨?_, ?_, ?_, ?_, ?_⟩ <;> simp [corrInit]

/-- C1 counterexample: a legal interleaving — register, successful write,
reader delivers the response, caller receives it and returns — after which
`sendRequest` has returned with the delivered response while the pending
entry for its request id is still in the table: the reader's cleanup
delete has not yet run, so the entry does outlive the call's return. -/
theorem sendRequest_entry_outlives_return :
    (corrRun (corrInit [sampleResponse])
        [.register, .writeOk, .readerDispatch, .recvResponse]).map
      (fun s => (s.callerPhase, s.entryPresent, s.callResult.isSome,
                 s.readerPhase)) =
      some (.returned, true, true, .cleaning) := rfl

/-- C1 (amended): in every interleaving of one `sendRequest` call with the
reader loop, exactly one of delivered response, timeout error, or send error
is recorded — a result exists exactly when the call has returned — and the
pending entry is removed at most once, never twice; once the call has
returned and the reader is not mid-frame, the entry is gone and was removed
exactly once.  (As the counterexample shows, on the response-delivery path
the removal is the reader's cleanup and may happen after the call has
already returned, so "no entry remains the moment the call returns" does
not hold; it is restored as soon as the reader finishes the frame.) -/
theorem sendRequest_entry_lifecycle (frames : List RPCResponse)
    (acts : List CorrAct) (s : CorrState)
    (hrun : corrRun (corrInit frames) acts = some s) :
    (s.callResult.isSome = true ↔ s.callerPhase = .returned)
    ∧ s.removals ≤ 1
    ∧ (s.callerPhase = .returned → s.readerPhase = .reading →
       s.entryPresent = false ∧ s.removals = 1) := by
  have hinv := corrRun_inv acts (corrInit frames) s (corrInit_inv frames) hrun
  obtain ⟨h1, h2, h3, h4, h5⟩ := hinv
  refine ⟨h3, ?_, ?_⟩
  · by_cases hph : s.callerPhase = .start
    · simp [(h1 hph).2.1]
    · have hsum := h2 hph
      by_cases hp : s.entryPresent <;> simp [hp] at hsum <;> omega
  · intro hret hread
    have hp : s.entryPresent = false := by
      by_contra hcon
      have hptrue : s.entryPresent = true := by simpa using hcon
      have hclean := h5 hret hptrue
      rw [hread] at hclean
      exact absurd hclean (by simp)
    refine ⟨hp, ?_⟩
    have hsum := h2 (by simp [hret])
    simpa [hp] using hsum

theorem sendRequest_entry_lifecycle_witness :
    corrRun (corrInit [])
        [.register, .writeOk, .chooseTimeout, .timeoutCleanup] =
      some timeoutFinalState ∧
    ((timeoutFinalState.callResult.isSome = true ↔
        timeoutFinalState.callerPhase = .returned)
     ∧ timeoutFinalState.removals ≤ 1
     ∧ (timeoutFinalState.callerPhase = .returned →
        timeoutFinalState.readerPhase = .reading →
        timeoutFinalState.entryPresent = false ∧
          timeoutFinalState.removals = 1)) :=
  ⟨rfl,
   sendRequest_entry_lifecycle []
     [.register, .writeOk, .chooseTimeout, .timeoutCleanup]
     timeoutFinalState rfl⟩

end Faucet
